import Mathlib

/-!
Shallow embedding of the metrics/aggregation engine of the sales dashboard
(app/utils/metrics.py, class MetricsCalculator) and of the filter evaluator
(app/components/filters.py, FilterComponent.apply_filters).

Modelling choices:
* A dataframe is a List Row.  The data column is an absolute day number
  counted in the proleptic Gregorian calendar with day 0 = 0001-01-01 (a
  Monday), which is exactly the information content of a day-precision
  pandas Timestamp.  The ano column is stored in the row, as in the
  dataframe (it is derived once at load time).
* Real-valued columns are rationals (exact field arithmetic standing for
  float arithmetic; the division-by-zero special values that pandas/numpy
  produce are modelled explicitly by PdVal).
* tipoCliente is the two-valued enum produced by the loader
  (data_loader.py maps 0 to Varejo and 1 to Atacado).
* pandas groupby with sort=True (the default) is modelled as: distinct keys
  (List.dedup), sorted lexicographically (List.insertionSort with a
  structurally recursive string comparison equivalent to the pandas string
  order), each key mapped to the aggregate of the rows matching it.
* groupby with a time Grouper of frequency W resamples: it produces every
  weekly bin from the one holding the earliest date to the one holding the
  latest, labelled by the right edge of the bin (the Sunday ending the
  week, since frequency W means W-SUN), empty bins included (they sum to 0).
* An outer merge on unique keys followed by fillna(0) is modelled by
  aggregating over the union of the key sets, the sum over an empty row set
  being 0 — extensionally the same table.
-/

/-- Customer type, as decoded by the loader (0 = Varejo, 1 = Atacado). -/
inductive TipoCliente where
  | varejo : TipoCliente
  | atacado : TipoCliente
deriving DecidableEq, Repr

/-- Numeric code ordering TipoCliente values the way pandas sorts the decoded
strings (Atacado before Varejo). -/
def TipoCliente.code : TipoCliente → Nat
  | .atacado => 0
  | .varejo => 1

instance : Fintype TipoCliente where
  elems := ⟨{TipoCliente.varejo, TipoCliente.atacado}, by decide⟩
  complete := by intro x; cases x <;> decide

/-- One transaction row of the loaded dataframe.  data is the absolute day
number (proleptic Gregorian, day 0 = 0001-01-01); ano is the year column
derived at load time. -/
structure Row where
  data : Nat
  ano : Nat
  loja : String
  tipoCliente : TipoCliente
  quantidade : ℚ
  receita : ℚ
  lucro : ℚ
deriving DecidableEq, Repr

/-- The three metric columns the aggregate functions are called with. -/
inductive Metric where
  | quantidade : Metric
  | receita : Metric
  | lucro : Metric
deriving DecidableEq, Repr

/-- Column selection df[column] for one row. -/
def colVal (r : Row) : Metric → ℚ
  | .quantidade => r.quantidade
  | .receita => r.receita
  | .lucro => r.lucro

/-- df[column].sum() over a list of rows (pandas sums an empty column to 0). -/
def sumBy (df : List Row) (column : Metric) : ℚ :=
  (df.map (fun r => colVal r column)).sum

/-- Lexicographic comparison of character lists, structurally recursive so
that it evaluates by decide; it realizes the strict lexicographic string
order that pandas sorts string keys by. -/
def chLt : List Char → List Char → Bool
  | [], [] => false
  | [], _ :: _ => true
  | _ :: _, [] => false
  | a :: as, b :: bs => a < b || (a = b && chLt as bs)

/-- Strict lexicographic order on store names. -/
def strLt (a b : String) : Bool :=
  chLt a.data b.data

/-- Non-strict lexicographic order on store names, used as the sorting
relation for group keys. -/
def strLe (a b : String) : Prop :=
  strLt a b = true ∨ a = b

instance : DecidableRel strLe := fun a b => by
  unfold strLe; infer_instance

/-- Days before January 1 of Gregorian year y (for y ≥ 1), counted from
0001-01-01.  Standard proleptic Gregorian leap-year rule. -/
def yearStart (y : Nat) : Nat :=
  365 * (y - 1) + (y - 1) / 4 - (y - 1) / 100 + (y - 1) / 400

/-- Day-of-year (0-based, as an integer) of absolute day d within year y. -/
def doyIn (y : Nat) (d : Nat) : Int :=
  (d : Int) - (yearStart y : Int)

/-- MetricsCalculator.calculate_total: df[column].sum(). -/
def calculate_total (df : List Row) (column : Metric) : ℚ :=
  sumBy df column

/-- MetricsCalculator.calculate_ytd: sum of column over the rows with
ano == reference_year and data <= current_date, where current_date (the
datetime.now() of the source) is passed explicitly as now. -/
def calculate_ytd (df : List Row) (column : Metric) (reference_year : Nat)
    (now : Nat) : ℚ :=
  sumBy (df.filter (fun r => r.ano = reference_year ∧ r.data ≤ now)) column

/-- Result record of MetricsCalculator.calculate_yoy. -/
structure YoyResult where
  current_value : ℚ
  previous_value : ℚ
  difference : ℚ
  percentage : ℚ
deriving DecidableEq, Repr

/-- MetricsCalculator.calculate_yoy: YTD of both years (both against the same
live now date), their difference, and the percentage with the zero-previous
case policy-clamped to 0. -/
def calculate_yoy (df : List Row) (column : Metric) (current_year : Nat)
    (previous_year : Nat) (now : Nat) : YoyResult :=
  let current_ytd := calculate_ytd df column current_year now
  let previous_ytd := calculate_ytd df column previous_year now
  let difference := current_ytd - previous_ytd
  { current_value := current_ytd
    previous_value := previous_ytd
    difference := difference
    percentage := if previous_ytd ≠ 0 then difference / previous_ytd * 100 else 0 }

/-- The label that a weekly time Grouper gives the bin holding absolute day
d: the next day that is a Sunday (day 0 = 0001-01-01 is a Monday, so Sundays
are the days congruent to 6 mod 7); a bin is the half-open week ending at its
label. -/
def weekLabel (d : Nat) : Nat :=
  d + (13 - d % 7) % 7

/-- MetricsCalculator.aggregate_by_period with the default weekly frequency:
groupby over a time Grouper on the data column, then [column].sum() and
reset_index().  The time Grouper resamples: every weekly bin from the bin of
the earliest date to the bin of the latest date appears, in ascending order,
labelled by its right edge, and an empty bin sums to 0.  An empty frame
yields an empty frame. -/
def aggregate_by_period (df : List Row) (column : Metric) : List (Nat × ℚ) :=
  match df with
  | [] => []
  | r :: rs =>
    let lo := weekLabel (rs.foldl (fun a x => min a x.data) r.data)
    let hi := weekLabel (rs.foldl (fun a x => max a x.data) r.data)
    (List.range ((hi - lo) / 7 + 1)).map (fun i =>
      (lo + 7 * i, sumBy (df.filter (fun x => weekLabel x.data = lo + 7 * i)) column))

/-- Float special values that pandas ratio columns can hold: a finite number,
NaN (the pandas missing-value marker), or a signed infinity. -/
inductive PdVal where
  | num : ℚ → PdVal
  | nan : PdVal
  | posInf : PdVal
  | negInf : PdVal
deriving DecidableEq, Repr

/-- IEEE-754 division as performed by pandas on float columns: a finite
quotient when the divisor is nonzero, otherwise a signed infinity by the sign
of the dividend, and NaN for 0/0. -/
def pdDiv (a b : ℚ) : PdVal :=
  if b ≠ 0 then .num (a / b)
  else if 0 < a then .posInf
  else if a < 0 then .negInf
  else .nan

/-- Multiplication of the ratio column by the positive constant 100; the
special values are preserved. -/
def pdMul100 : PdVal → PdVal
  | .num q => .num (q * 100)
  | .nan => .nan
  | .posInf => .posInf
  | .negInf => .negInf

/-- Round half to even (the numpy rounding mode) to an integer. -/
def rhe (q : ℚ) : ℤ :=
  if q - ⌊q⌋ < 1 / 2 then ⌊q⌋
  else if 1 / 2 < q - ⌊q⌋ then ⌊q⌋ + 1
  else if ⌊q⌋ % 2 = 0 then ⌊q⌋ else ⌊q⌋ + 1

/-- .round(2) on a finite value. -/
def round2 (q : ℚ) : ℚ :=
  (rhe (q * 100) : ℚ) / 100

/-- .round(2) on a pandas float column: finite values are rounded half to
even at 2 decimals; NaN and the infinities pass through. -/
def pdRound2 : PdVal → PdVal
  | .num q => .num (round2 q)
  | .nan => .nan
  | .posInf => .posInf
  | .negInf => .negInf

/-- Whether a pandas float value is a finite number. -/
def PdVal.isFinite : PdVal → Bool
  | .num _ => true
  | _ => false

/-- IEEE-754 addition on pandas float values (NaN absorbs; opposite
infinities give NaN). -/
def pdAdd : PdVal → PdVal → PdVal
  | .num a, .num b => .num (a + b)
  | .nan, _ => .nan
  | _, .nan => .nan
  | .posInf, .negInf => .nan
  | .negInf, .posInf => .nan
  | .posInf, _ => .posInf
  | _, .posInf => .posInf
  | .negInf, _ => .negInf
  | _, .negInf => .negInf

/-- Sum of a pandas float column. -/
def pdSum (l : List PdVal) : PdVal :=
  l.foldl pdAdd (.num 0)

/-- The value v is a finite number within tol of c; false for NaN and the
infinities. -/
def pdNear (v : PdVal) (c tol : ℚ) : Prop :=
  match v with
  | .num q => |q - c| ≤ tol
  | _ => False

instance (v : PdVal) (c tol : ℚ) : Decidable (pdNear v c tol) := by
  unfold pdNear; cases v <;> infer_instance

/-- Ordering on (loja, tipoCliente) group keys, as pandas sorts the group
index (store lexicographically, then Atacado before Varejo). -/
def keyLe (a b : String × TipoCliente) : Prop :=
  strLt a.1 b.1 = true ∨ (a.1 = b.1 ∧ a.2.code ≤ b.2.code)

instance : DecidableRel keyLe := fun a b => by
  unfold keyLe; infer_instance

/-- The sorted list of distinct (loja, tipoCliente) keys of a frame: the
group index of groupby([loja, tipoCliente]). -/
def storeChannelKeys (df : List Row) : List (String × TipoCliente) :=
  ((df.map (fun r => (r.loja, r.tipoCliente))).dedup).insertionSort keyLe

/-- One output row of calculate_by_store_and_channel. -/
structure SCEntry where
  loja : String
  tipoCliente : TipoCliente
  quantidade : ℚ
  receita : ℚ
  lucro : ℚ
  ticket_medio : PdVal
  lucro_medio : PdVal
deriving DecidableEq, Repr

/-- MetricsCalculator.calculate_by_store_and_channel: group by
(loja, tipoCliente), sum the three metrics, then add
ticket_medio = (receita / quantidade).round(2) and
lucro_medio = (lucro / quantidade).round(2). -/
def calculate_by_store_and_channel (df : List Row) : List SCEntry :=
  (storeChannelKeys df).map (fun k =>
    let g := df.filter (fun r => (r.loja, r.tipoCliente) = k)
    let q := sumBy g .quantidade
    let re := sumBy g .receita
    let lu := sumBy g .lucro
    { loja := k.1
      tipoCliente := k.2
      quantidade := q
      receita := re
      lucro := lu
      ticket_medio := pdRound2 (pdDiv re q)
      lucro_medio := pdRound2 (pdDiv lu q) })

/-- One output row of calculate_sales_distribution. -/
structure DistEntry where
  loja : String
  tipoCliente : TipoCliente
  quantidade : ℚ
  percentual : PdVal
deriving DecidableEq, Repr

/-- The grouped table sales_by_store_channel of
calculate_sales_distribution: one (key, quantity-sum) pair per
(loja, tipoCliente) group. -/
def salesOf (df : List Row) : List ((String × TipoCliente) × ℚ) :=
  (storeChannelKeys df).map (fun k =>
    (k, sumBy (df.filter (fun r => (r.loja, r.tipoCliente) = k)) .quantidade))

/-- The total_by_store column (groupby(loja) transform(sum) over the grouped
table): the sum of the group quantity sums of the given store. -/
def totalOf (df : List Row) (s : String) : ℚ :=
  (((salesOf df).filter (fun x => x.1.1 = s)).map (fun x => x.2)).sum

/-- MetricsCalculator.calculate_sales_distribution: per-(store, channel)
quantity sums, then percentual = (quantidade / total_by_store * 100).round(2)
where total_by_store is the transform(sum) of the group sums within the same
store. -/
def calculate_sales_distribution (df : List Row) : List DistEntry :=
  (salesOf df).map (fun kq =>
    { loja := kq.1.1
      tipoCliente := kq.1.2
      quantidade := kq.2
      percentual := pdRound2 (pdMul100 (pdDiv kq.2 (totalOf df kq.1.1))) })

/-- One output row of calculate_yoy_by_store (after the outer merge with the
atual/anterior suffixes, fillna(0), and the three percentage variation
columns in which the infinities are replaced by 0 and NaN is filled with 0). -/
structure YoyStoreEntry where
  loja : String
  quantidade_atual : ℚ
  receita_atual : ℚ
  lucro_atual : ℚ
  quantidade_anterior : ℚ
  receita_anterior : ℚ
  lucro_anterior : ℚ
  var_quantidade_pct : ℚ
  var_receita_pct : ℚ
  var_lucro_pct : ℚ
deriving DecidableEq, Repr

/-- (atual − anterior) / anterior * 100 followed by
.replace([inf, -inf], 0).fillna(0): the only non-finite outcomes of the raw
formula are for anterior = 0 (a signed infinity when atual ≠ 0, NaN when
atual = 0), and both are sent to 0. -/
def varPct (atual anterior : ℚ) : ℚ :=
  if anterior = 0 then 0 else (atual - anterior) / anterior * 100

/-- Sorted distinct store keys of a frame (the group index of
groupby(loja)). -/
def storeKeys (df : List Row) : List String :=
  ((df.map (fun r => r.loja)).dedup).insertionSort strLe

/-- MetricsCalculator.calculate_yoy_by_store: per-store metric sums for the
rows of each of the two years, outer-merged on loja (union of the two store
sets) with the missing side filled with 0, plus the clamped percentage
variation columns.  A store absent from one year has an empty row set there,
whose sums are 0 — exactly the fillna(0) of the outer merge. -/
def calculate_yoy_by_store (df : List Row) (current_year previous_year : Nat) :
    List YoyStoreEntry :=
  let cur := df.filter (fun r => r.ano = current_year)
  let prev := df.filter (fun r => r.ano = previous_year)
  let curKeys := storeKeys cur
  let prevKeys := storeKeys prev
  let keys := curKeys ++ prevKeys.filter (fun s => s ∉ curKeys)
  keys.map (fun s =>
    let cg := cur.filter (fun r => r.loja = s)
    let pg := prev.filter (fun r => r.loja = s)
    let qa := sumBy cg .quantidade
    let ra := sumBy cg .receita
    let la := sumBy cg .lucro
    let qp := sumBy pg .quantidade
    let rp := sumBy pg .receita
    let lp := sumBy pg .lucro
    { loja := s
      quantidade_atual := qa
      receita_atual := ra
      lucro_atual := la
      quantidade_anterior := qp
      receita_anterior := rp
      lucro_anterior := lp
      var_quantidade_pct := varPct qa qp
      var_receita_pct := varPct ra rp
      var_lucro_pct := varPct la lp })

/-- The filter state of FilterComponent (the _filters dictionary).  none
models both an absent key and a non-truthy value (the source guards each
filter with: if self._filters.get(key)), since render stores None instead of
an empty selection. -/
structure Filters where
  lojas : Option (List String)
  tiposCliente : Option (List TipoCliente)
  data_inicio : Option Nat
  data_fim : Option Nat

/-- FilterComponent.apply_filters: store filter (skipped when the selection
is non-truthy or contains the sentinel Empresa), then customer-type filter,
then the date-range filter (applied only when both bounds are truthy). -/
def apply_filters (f : Filters) (df : List Row) : List Row :=
  let d1 := match f.lojas with
    | some lojas =>
      if lojas ≠ [] ∧ "Empresa" ∉ lojas then df.filter (fun r => r.loja ∈ lojas) else df
    | none => df
  let d2 := match f.tiposCliente with
    | some tipos =>
      if tipos ≠ [] then d1.filter (fun r => r.tipoCliente ∈ tipos) else d1
    | none => d1
  match f.data_inicio, f.data_fim with
  | some s, some e => d2.filter (fun r => s ≤ r.data ∧ r.data ≤ e)
  | _, _ => d2

/-- Metric-column selection on a by-store-and-channel output row. -/
def entryVal (e : SCEntry) : Metric → ℚ
  | .quantidade => e.quantidade
  | .receita => e.receita
  | .lucro => e.lucro

/-- The spec reading of the previous-year YTD in year_over_year: the rows of
year are summed only up to the same day-of-year boundary as the live date now
reaches within cy ("the previous year total is partial, covering only as much
of that year as has elapsed of the current year"). -/
def ytd_same_doy (df : List Row) (column : Metric) (year cy : Nat) (now : Nat) : ℚ :=
  sumBy (df.filter (fun r => r.ano = year ∧ doyIn year r.data ≤ doyIn cy now)) column

/-! ## Concrete example tables

Absolute day numbers used below: yearStart 2024 = 738885 (2024-01-01, a
Monday), yearStart 2025 = 739251, yearStart 2026 = 739616; 739550 is
2025-10-27 (day-of-year 300 of 2025); 739715 is 2026-04-10 (day-of-year 100
of 2026); 738906 is 2024-01-22 (a Monday). -/

/-- A row late in 2025 (day-of-year 300), used against a live date early in
2026 (day-of-year 100). -/
def rowPrevLate : Row :=
  { data := 739550, ano := 2025, loja := "A", tipoCliente := .varejo,
    quantidade := 1, receita := 2, lucro := 3 }

/-- A row whose group has zero total quantity but nonzero revenue and
(negative) profit. -/
def rowZeroQty : Row :=
  { data := 738885, ano := 2024, loja := "Z", tipoCliente := .varejo,
    quantidade := 0, receita := 5, lucro := -3 }

/-- The single output row of calculate_by_store_and_channel [rowZeroQty]:
zero quantity with nonzero numerators gives the two signed infinities. -/
def entryZeroQty : SCEntry :=
  { loja := "Z"
    tipoCliente := .varejo
    quantidade := 0
    receita := 5
    lucro := -3
    ticket_medio := .posInf
    lucro_medio := .negInf }

/-- A current-year row for store A with quantity 50 and no matching
previous-year data (the spec §8.3 example). -/
def rowCur50 : Row :=
  { data := 739626, ano := 2026, loja := "A", tipoCliente := .varejo,
    quantidade := 50, receita := 100, lucro := 10 }

/-- The single output row of calculate_yoy_by_store [rowCur50] 2026 2025. -/
def entryCur50 : YoyStoreEntry :=
  { loja := "A"
    quantidade_atual := 50
    receita_atual := 100
    lucro_atual := 10
    quantidade_anterior := 0
    receita_anterior := 0
    lucro_anterior := 0
    var_quantidade_pct := 0
    var_receita_pct := 0
    var_lucro_pct := 0 }

/-- Current-year (2024) rows for stores A and B of the spec §8.4 example. -/
def rowA24 : Row :=
  { data := 738890, ano := 2024, loja := "A", tipoCliente := .varejo,
    quantidade := 1, receita := 10, lucro := 1 }

def rowB24 : Row :=
  { data := 738891, ano := 2024, loja := "B", tipoCliente := .atacado,
    quantidade := 2, receita := 20, lucro := 2 }

/-- Previous-year (2023) rows for stores B and C of the spec §8.4 example. -/
def rowB23 : Row :=
  { data := 738600, ano := 2023, loja := "B", tipoCliente := .varejo,
    quantidade := 3, receita := 30, lucro := 3 }

def rowC23 : Row :=
  { data := 738601, ano := 2023, loja := "C", tipoCliente := .atacado,
    quantidade := 4, receita := 40, lucro := 4 }

/-- The spec §8.4 dataframe: current-year stores {A, B}, previous-year
stores {B, C}. -/
def dfOuter : List Row := [rowA24, rowB24, rowB23, rowC23]

/-- The store-C output row of calculate_yoy_by_store dfOuter 2024 2023:
present only in the previous year, so the current side is filled with 0. -/
def entryOuterC : YoyStoreEntry :=
  { loja := "C"
    quantidade_atual := 0
    receita_atual := 0
    lucro_atual := 0
    quantidade_anterior := 4
    receita_anterior := 40
    lucro_anterior := 4
    var_quantidade_pct := -100
    var_receita_pct := -100
    var_lucro_pct := -100 }

/-- Rows in two different stores, used with the sentinel store filter. -/
def rowS1 : Row :=
  { data := 738885, ano := 2024, loja := "Store-1", tipoCliente := .varejo,
    quantidade := 1, receita := 1, lucro := 1 }

def rowS2 : Row :=
  { data := 738886, ano := 2024, loja := "Store-2", tipoCliente := .atacado,
    quantidade := 2, receita := 2, lucro := 2 }

/-- Rows on 2024-01-01 (Monday) and 2024-01-22 (Monday), three weekly bins
apart, so that the two intermediate weekly bins are empty. -/
def rowW1 : Row :=
  { data := 738885, ano := 2024, loja := "A", tipoCliente := .varejo,
    quantidade := 5, receita := 10, lucro := 1 }

def rowW2 : Row :=
  { data := 738906, ano := 2024, loja := "B", tipoCliente := .atacado,
    quantidade := 7, receita := 14, lucro := 2 }

/-- The sparse-weeks dataframe for the period-bucketing claim. -/
def dfWeeks : List Row := [rowW1, rowW2]

/-- Two channels of the same store with quantities 5 and 7 (distribution
percentages 41.67 and 58.33). -/
def rowD1 : Row :=
  { data := 738885, ano := 2024, loja := "A", tipoCliente := .varejo,
    quantidade := 5, receita := 10, lucro := 1 }

def rowD2 : Row :=
  { data := 738886, ano := 2024, loja := "A", tipoCliente := .atacado,
    quantidade := 7, receita := 14, lucro := 2 }

/-- A store-A dataframe with two channels and nonzero total quantity. -/
def dfDist : List Row := [rowD1, rowD2]

/-- The start (Monday) of the calendar week holding absolute day d: the
period_start key that the claim about by_period describes. -/
def weekStart (d : Nat) : Nat :=
  d - d % 7

/-! ## Helper lemmas -/

theorem sum_map_filter_split (l : List Row) (p : Row → Bool) (f : Row → ℚ) :
    ((l.filter p).map f).sum + ((l.filter (fun a => !(p a))).map f).sum
      = (l.map f).sum := by
  induction l with
  | nil => simp
  | cons a t ih =>
    cases h : p a <;> simp [List.filter_cons, h] <;> linarith [ih]

theorem sum_fiberwise {κ : Type} [DecidableEq κ] (key : Row → κ) (f : Row → ℚ) :
    ∀ (ks : List κ) (l : List Row), ks.Nodup → (∀ r ∈ l, key r ∈ ks) →
      (ks.map (fun k => ((l.filter (fun r => key r = k)).map f).sum)).sum
        = (l.map f).sum := by
  intro ks
  induction ks with
  | nil =>
    intro l _ hcov
    cases l with
    | nil => simp
    | cons r t => exact absurd (hcov r (by simp)) (by simp)
  | cons k ks ih =>
    intro l hnd hcov
    have hk : k ∉ ks := (List.nodup_cons.mp hnd).1
    have hnd' : ks.Nodup := (List.nodup_cons.mp hnd).2
    have hfib : ∀ k' ∈ ks,
        ((l.filter (fun r => key r = k')).map f).sum
          = (((l.filter (fun r => !(decide (key r = k)))).filter
              (fun r => key r = k')).map f).sum := by
      intro k' hk'
      have hcomm : (l.filter (fun r => !(decide (key r = k)))).filter
            (fun r => key r = k')
          = l.filter (fun r => key r = k') := by
        rw [List.filter_filter]
        apply List.filter_congr
        intro r _
        by_cases h : key r = k'
        · have hne : ¬ key r = k := by
            intro hkk; exact hk (hkk ▸ h ▸ hk')
          have hkk' : ¬ k' = k := fun he => hk (he ▸ hk')
          simp [h, hne, hkk']
        · simp [h]
      rw [hcomm]
    have hmap : (ks.map (fun k' => ((l.filter (fun r => key r = k')).map f).sum)).sum
        = (ks.map (fun k' =>
            (((l.filter (fun r => !(decide (key r = k)))).filter
              (fun r => key r = k')).map f).sum)).sum := by
      congr 1
      exact List.map_congr_left hfib
    have hcov' : ∀ r ∈ l.filter (fun r => !(decide (key r = k))), key r ∈ ks := by
      intro r hr
      have hrl : r ∈ l := List.mem_of_mem_filter hr
      have hne : ¬ key r = k := by
        have hmem := List.of_mem_filter hr
        simpa using hmem
      have hks := hcov r hrl
      rcases List.mem_cons.mp hks with h | h
      · exact absurd h hne
      · exact h
    simp only [List.map_cons, List.sum_cons, hmap, ih _ hnd' hcov']
    exact sum_map_filter_split l (fun r => decide (key r = k)) f


theorem storeChannelKeys_nodup (df : List Row) : (storeChannelKeys df).Nodup :=
  ((List.perm_insertionSort keyLe _).nodup_iff).mpr (List.nodup_dedup _)

theorem mem_storeChannelKeys {df : List Row} {k : String × TipoCliente} :
    k ∈ storeChannelKeys df ↔ k ∈ df.map (fun r => (r.loja, r.tipoCliente)) :=
  ((List.perm_insertionSort keyLe _).mem_iff).trans (List.mem_dedup)

theorem storeKeys_nodup (df : List Row) : (storeKeys df).Nodup :=
  ((List.perm_insertionSort strLe _).nodup_iff).mpr (List.nodup_dedup _)

theorem mem_storeKeys {df : List Row} {s : String} :
    s ∈ storeKeys df ↔ s ∈ df.map (fun r => r.loja) :=
  ((List.perm_insertionSort strLe _).mem_iff).trans (List.mem_dedup)

/-! ## C9 -/

/-- C9: on an empty (zero-row) table every aggregate returns the identity of
its output shape without raising: the total of any metric is 0, the weekly
period aggregation is the empty sequence, and apply_filters with any filter
state returns the empty table. -/
theorem c9_empty_table_identities :
    ∀ (column : Metric) (f : Filters),
      calculate_total [] column = 0 ∧
      aggregate_by_period [] column = [] ∧
      apply_filters f [] = [] := by
  intro column f
  refine ⟨by simp [calculate_total, sumBy], rfl, ?_⟩
  rcases f with ⟨l, t, di, dfim⟩
  cases l <;> cases t <;> cases di <;> cases dfim <;>
    simp [apply_filters]

/-! ## C10 -/

/-- C10: apply_filters restricts by date only when both bounds are set: if
either bound is absent, the result is the same as with no date bounds at all
(no date restriction). -/
theorem c10_date_filter_needs_both_bounds :
    ∀ (df : List Row) (f : Filters),
      f.data_inicio = none ∨ f.data_fim = none →
      apply_filters f df
        = apply_filters { f with data_inicio := none, data_fim := none } df := by
  intro df f h
  rcases f with ⟨l, t, di, dfim⟩
  simp only at h
  rcases h with h | h
  · subst h; cases dfim <;> rfl
  · subst h; cases di <;> rfl

/-- Witness for C10 at a concrete input: a filter with only the start bound
set leaves the rows of every date in place. -/
theorem c10_witness :
    apply_filters
        { lojas := none, tiposCliente := none, data_inicio := some 738900,
          data_fim := none } dfWeeks
      = apply_filters
        { lojas := none, tiposCliente := none, data_inicio := none,
          data_fim := none } dfWeeks :=
  c10_date_filter_needs_both_bounds dfWeeks _ (Or.inr rfl)

/-! ## C6 -/

/-- C6: a stores filter containing the sentinel Empresa applies no store
restriction at all: the result equals the result with the stores filter
absent, whatever concrete store names accompany the sentinel, so the
sentinel is never matched against the loja field of any row. -/
theorem c6_sentinel_skips_store_filter :
    ∀ (df : List Row) (f : Filters) (ls : List String),
      f.lojas = some ls → "Empresa" ∈ ls →
      apply_filters f df = apply_filters { f with lojas := none } df := by
  intro df f ls hsome hmem
  rcases f with ⟨l, t, di, dfim⟩
  simp only at hsome
  subst hsome
  simp [apply_filters, hmem]

/-- Witness for C6 at a concrete input: the set {Empresa, Store-1} keeps the
rows of every store, exactly as an absent store filter does. -/
theorem c6_witness :
    apply_filters
        { lojas := some ["Empresa", "Store-1"], tiposCliente := none,
          data_inicio := none, data_fim := none } [rowS1, rowS2]
      = apply_filters
        { lojas := none, tiposCliente := none, data_inicio := none,
          data_fim := none } [rowS1, rowS2] :=
  c6_sentinel_skips_store_filter [rowS1, rowS2] _ ["Empresa", "Store-1"] rfl
    (by simp)

/-! ## C3 -/

/-- C3: year_over_year returns percentage 0 whenever the previous-year sum is
0, and yoy_by_store returns a 0 percentage variation for every store whose
previous-year sum of a metric is 0 (whatever the current-year sum); within
the embedding the results are plain rationals, so no infinity or NaN is ever
produced for this case. -/
theorem c3_zero_previous_policy :
    (∀ (df : List Row) (column : Metric) (cy py now : Nat),
        (calculate_yoy df column cy py now).previous_value = 0 →
        (calculate_yoy df column cy py now).percentage = 0) ∧
    (∀ (df : List Row) (cy py : Nat),
        ∀ e ∈ calculate_yoy_by_store df cy py,
          (e.quantidade_anterior = 0 → e.var_quantidade_pct = 0) ∧
          (e.receita_anterior = 0 → e.var_receita_pct = 0) ∧
          (e.lucro_anterior = 0 → e.var_lucro_pct = 0)) := by
  constructor
  · intro df column cy py now h
    simp only [calculate_yoy] at h ⊢
    simp [h]
  · intro df cy py e he
    simp only [calculate_yoy_by_store, List.mem_map] at he
    obtain ⟨s, hs, rfl⟩ := he
    refine ⟨?_, ?_, ?_⟩ <;> intro h <;> simp only at h ⊢ <;>
      unfold varPct <;> exact if_pos h

/-- Witness for C3: with only a current-year row (store A, quantity 50) both
the scalar percentage and the per-store variation are 0, not an error. -/
theorem c3_witness :
    (calculate_yoy [rowCur50] .quantidade 2026 2025 739715).percentage = 0 ∧
    entryCur50.var_quantidade_pct = 0 := by
  constructor
  · exact c3_zero_previous_policy.1 [rowCur50] .quantidade 2026 2025 739715
      (by simp [calculate_yoy, calculate_ytd, sumBy, colVal, rowCur50])
  · exact ((c3_zero_previous_policy.2 [rowCur50] 2026 2025 entryCur50
      (by simp [calculate_yoy_by_store, storeKeys, rowCur50, sumBy, colVal, varPct,
        entryCur50, List.insertionSort, List.orderedInsert])).1)
      (by norm_num [entryCur50])

/-! ## C1 -/

/-- C1 counterexample: with the live date at day-of-year 100 of 2026, the
previous value of year_over_year on a table holding one 2025 row at
day-of-year 300 is 1 (the row is included, since its date is before the live
date), while the same-day-of-year-boundary reading of the claim predicts 0:
the previous-year sum is not truncated at the current day-of-year. -/
theorem c1_counterexample :
    (calculate_yoy [rowPrevLate] .quantidade 2026 2025 739715).previous_value
      ≠ ytd_same_doy [rowPrevLate] .quantidade 2025 2026 739715 := by
  have h1 : (calculate_yoy [rowPrevLate] .quantidade 2026 2025 739715).previous_value
      = 1 := by
    simp [calculate_yoy, calculate_ytd, sumBy, colVal, rowPrevLate]
  have h2 : ytd_same_doy [rowPrevLate] .quantidade 2025 2026 739715 = 0 := by
    simp [ytd_same_doy, sumBy, colVal, rowPrevLate, doyIn, yearStart]
  rw [h1, h2]
  norm_num

/-- C1 amended: previous equals ytd(table, metric, previous_year) computed
with as_of = the live processing date; and since every previous-year date
precedes the end of the previous year, whenever the live date is at or past
the start of the following year the previous-year sum covers the whole
previous year (it is not truncated at the current day-of-year boundary). -/
theorem c1_previous_is_full_prior_year :
    ∀ (df : List Row) (column : Metric) (cy py now : Nat),
      (calculate_yoy df column cy py now).previous_value
          = calculate_ytd df column py now ∧
      ((∀ r ∈ df, r.ano = py → r.data < yearStart (py + 1)) →
        yearStart (py + 1) ≤ now →
        (calculate_yoy df column cy py now).previous_value
          = sumBy (df.filter (fun r => r.ano = py)) column) := by
  intro df column cy py now
  refine ⟨rfl, ?_⟩
  intro hb hn
  show calculate_ytd df column py now = _
  unfold calculate_ytd
  congr 1
  apply List.filter_congr
  intro r hr
  by_cases h : r.ano = py
  · have hle : r.data ≤ now := le_trans (le_of_lt (hb r hr h)) hn
    simp [h, hle]
  · simp [h]

/-- Witness for C1 amended at the concrete table: the 2025 row dated after
the same-day-of-year boundary is still summed, giving the full 2025 total. -/
theorem c1_witness :
    (calculate_yoy [rowPrevLate] .quantidade 2026 2025 739715).previous_value
      = sumBy ([rowPrevLate].filter (fun r => r.ano = 2025)) .quantidade :=
  (c1_previous_is_full_prior_year [rowPrevLate] .quantidade 2026 2025 739715).2
    (by decide) (by decide)

theorem map_loja_of_map_mk (keys : List String) (mk : String → YoyStoreEntry)
    (hmk : ∀ s, (mk s).loja = s) :
    (keys.map mk).map (fun e => e.loja) = keys := by
  induction keys with
  | nil => rfl
  | cons a t ih => simp [hmk, ih]

/-! ## C4 -/

/-- C4: yoy_by_store has exactly one row per store in the union of the
current-year and previous-year store sets (no duplicates, and membership is
exactly the union), and a store absent from one of the two years carries 0
in all three of that side's metric sums. -/
theorem c4_outer_join_union :
    ∀ (df : List Row) (cy py : Nat),
      ((calculate_yoy_by_store df cy py).map (fun e => e.loja)).Nodup ∧
      (∀ s : String,
          s ∈ (calculate_yoy_by_store df cy py).map (fun e => e.loja) ↔
          ((∃ r ∈ df, r.ano = cy ∧ r.loja = s) ∨
            (∃ r ∈ df, r.ano = py ∧ r.loja = s))) ∧
      (∀ e ∈ calculate_yoy_by_store df cy py,
          ((¬ ∃ r ∈ df, r.ano = cy ∧ r.loja = e.loja) →
            e.quantidade_atual = 0 ∧ e.receita_atual = 0 ∧ e.lucro_atual = 0) ∧
          ((¬ ∃ r ∈ df, r.ano = py ∧ r.loja = e.loja) →
            e.quantidade_anterior = 0 ∧ e.receita_anterior = 0 ∧
              e.lucro_anterior = 0)) := by
  intro df cy py
  have hmapkeys : (calculate_yoy_by_store df cy py).map (fun e => e.loja)
      = (storeKeys (df.filter (fun r => r.ano = cy)))
        ++ ((storeKeys (df.filter (fun r => r.ano = py))).filter
            (fun s => s ∉ storeKeys (df.filter (fun r => r.ano = cy)))) := by
    simp only [calculate_yoy_by_store]
    exact map_loja_of_map_mk _ _ (fun s => rfl)
  refine ⟨?_, ?_, ?_⟩
  · rw [hmapkeys]
    apply List.Nodup.append (storeKeys_nodup _) ((storeKeys_nodup _).filter _)
    intro a ha hafil
    have := List.of_mem_filter hafil
    simp only [decide_eq_true_eq] at this
    exact this ha
  · intro s
    rw [hmapkeys]
    simp only [List.mem_append, List.mem_filter, mem_storeKeys, List.mem_map,
      List.mem_filter, decide_eq_true_eq]
    constructor
    · rintro (⟨r, ⟨hr, hy⟩, hl⟩ | ⟨⟨r, ⟨hr, hy⟩, hl⟩, _⟩)
      · exact Or.inl ⟨r, hr, hy, hl⟩
      · exact Or.inr ⟨r, hr, hy, hl⟩
    · rintro (⟨r, hr, hy, hl⟩ | ⟨r, hr, hy, hl⟩)
      · exact Or.inl ⟨r, ⟨hr, hy⟩, hl⟩
      · by_cases hc : ∃ a, (a ∈ df ∧ a.ano = cy) ∧ a.loja = s
        · obtain ⟨a, ⟨ha, hay⟩, hal⟩ := hc
          exact Or.inl ⟨a, ⟨ha, hay⟩, hal⟩
        · exact Or.inr ⟨⟨r, ⟨hr, hy⟩, hl⟩, hc⟩
  · intro e he
    simp only [calculate_yoy_by_store, List.mem_map] at he
    obtain ⟨s, hs, rfl⟩ := he
    constructor
    · intro hno
      have hnil : (df.filter (fun r => r.ano = cy)).filter (fun r => r.loja = s) = [] := by
        apply List.filter_eq_nil_iff.mpr
        intro r hr
        have hrdf : r ∈ df := List.mem_of_mem_filter hr
        have hy : r.ano = cy := by
          have := List.of_mem_filter hr; simpa using this
        simp only [decide_eq_true_eq]
        intro hl
        exact hno ⟨r, hrdf, hy, hl⟩
      simp only at hno ⊢
      rw [hnil]
      exact ⟨rfl, rfl, rfl⟩
    · intro hno
      have hnil : (df.filter (fun r => r.ano = py)).filter (fun r => r.loja = s) = [] := by
        apply List.filter_eq_nil_iff.mpr
        intro r hr
        have hrdf : r ∈ df := List.mem_of_mem_filter hr
        have hy : r.ano = py := by
          have := List.of_mem_filter hr; simpa using this
        simp only [decide_eq_true_eq]
        intro hl
        exact hno ⟨r, hrdf, hy, hl⟩
      simp only at hno ⊢
      rw [hnil]
      exact ⟨rfl, rfl, rfl⟩

/-- Witness for C4 at the spec §8.4 input (current stores {A, B}, previous
stores {B, C}): store C is in the result, and its current-year sums are 0. -/
theorem c4_witness :
    ("C" ∈ (calculate_yoy_by_store dfOuter 2024 2023).map (fun e => e.loja)) ∧
    (entryOuterC.quantidade_atual = 0 ∧ entryOuterC.receita_atual = 0 ∧
      entryOuterC.lucro_atual = 0) := by
  constructor
  · exact ((c4_outer_join_union dfOuter 2024 2023).2.1 "C").mpr
      (Or.inr ⟨rowC23, by simp [dfOuter], by simp [rowC23]⟩)
  · exact ((c4_outer_join_union dfOuter 2024 2023).2.2 entryOuterC
      (by
        simp [calculate_yoy_by_store, storeKeys, dfOuter, rowA24, rowB24, rowB23,
          rowC23, sumBy, colVal, varPct, entryOuterC, List.insertionSort,
          List.orderedInsert, strLe, strLt, chLt])).1
      (by
        rintro ⟨r, hr, hy, hl⟩
        simp only [entryOuterC] at hl
        fin_cases hr <;> simp_all [dfOuter, rowA24, rowB24, rowB23, rowC23])

/-! ## C2 -/

/-- C2 counterexample: on a group with zero total quantity but revenue sum 5
and profit sum −3, by_store_and_channel returns the signed infinities, not
the NaN missing-value marker, so the claim that the fields are an explicit
null/missing marker is false at this input. -/
theorem c2_counterexample :
    ¬ (∀ e ∈ calculate_by_store_and_channel [rowZeroQty],
        e.quantidade = 0 → e.ticket_medio = PdVal.nan ∧ e.lucro_medio = PdVal.nan) := by
  intro h
  have hmem : entryZeroQty ∈ calculate_by_store_and_channel [rowZeroQty] := by
    simp [calculate_by_store_and_channel, storeChannelKeys, rowZeroQty, sumBy, colVal,
      List.insertionSort, List.orderedInsert, pdDiv, pdRound2, entryZeroQty]
    norm_num [pdRound2]
  have h2 := h entryZeroQty hmem (by norm_num [entryZeroQty])
  simp [entryZeroQty] at h2

/-- C2 amended: for a group with zero summed quantity the average fields are
never a finite number (so never zero) and the operation does not raise: they
are NaN exactly when the corresponding numerator sum is also zero, and the
correspondingly signed infinity otherwise. -/
theorem c2_zero_quantity_nonfinite :
    ∀ (df : List Row), ∀ e ∈ calculate_by_store_and_channel df,
      e.quantidade = 0 →
      e.ticket_medio.isFinite = false ∧ e.lucro_medio.isFinite = false ∧
      e.ticket_medio
          = (if 0 < e.receita then PdVal.posInf
             else if e.receita < 0 then PdVal.negInf else PdVal.nan) ∧
      e.lucro_medio
          = (if 0 < e.lucro then PdVal.posInf
             else if e.lucro < 0 then PdVal.negInf else PdVal.nan) := by
  intro df e he hq
  simp only [calculate_by_store_and_channel, List.mem_map] at he
  obtain ⟨k, hk, rfl⟩ := he
  simp only at hq ⊢
  refine ⟨?_, ?_, ?_, ?_⟩ <;> simp only [hq, pdDiv] <;>
    norm_num <;> split_ifs <;> simp [pdRound2, PdVal.isFinite]

/-- Witness for C2 amended at the concrete zero-quantity group: both average
fields are non-finite. -/
theorem c2_witness :
    entryZeroQty.ticket_medio.isFinite = false ∧
    entryZeroQty.lucro_medio.isFinite = false := by
  have h := c2_zero_quantity_nonfinite [rowZeroQty] entryZeroQty
    (by
      simp [calculate_by_store_and_channel, storeChannelKeys, rowZeroQty, sumBy, colVal,
        List.insertionSort, List.orderedInsert, pdDiv, pdRound2, entryZeroQty]
      norm_num [pdRound2])
    (by norm_num [entryZeroQty])
  exact ⟨h.1, h.2.1⟩

/-! ## C5 -/

/-- C5: summing any of the three per-group metric sums of
by_store_and_channel over all (store, customer_type) group keys equals the
ungrouped total of that metric; in exact arithmetic the equality is exact,
hence within any floating-point tolerance. -/
theorem c5_grouping_total_preserving :
    ∀ (df : List Row) (column : Metric),
      ((calculate_by_store_and_channel df).map (fun e => entryVal e column)).sum
        = calculate_total df column := by
  intro df column
  have hcov : ∀ r ∈ df, (r.loja, r.tipoCliente) ∈ storeChannelKeys df := by
    intro r hr
    exact mem_storeChannelKeys.mpr (List.mem_map_of_mem _ hr)
  have hsum := sum_fiberwise (fun r => (r.loja, r.tipoCliente))
    (fun r => colVal r column) (storeChannelKeys df) df
    (storeChannelKeys_nodup df) hcov
  calc ((calculate_by_store_and_channel df).map (fun e => entryVal e column)).sum
      = ((storeChannelKeys df).map (fun k =>
          ((df.filter (fun r => (r.loja, r.tipoCliente) = k)).map
            (fun r => colVal r column)).sum)).sum := by
        simp only [calculate_by_store_and_channel, List.map_map]
        congr 1
        apply List.map_congr_left
        intro k _
        cases column <;> rfl
    _ = (df.map (fun r => colVal r column)).sum := hsum
    _ = calculate_total df column := rfl

/-! ## C7 -/

theorem weekLabel_mod (d : Nat) : weekLabel d % 7 = 6 := by
  unfold weekLabel; omega

theorem weekLabel_mono {d e : Nat} (h : d ≤ e) : weekLabel d ≤ weekLabel e := by
  unfold weekLabel; omega

theorem foldl_min_le_init (l : List Row) (a : Nat) :
    l.foldl (fun b x => min b x.data) a ≤ a := by
  induction l generalizing a with
  | nil => exact le_refl a
  | cons x t ih => exact le_trans (ih (min a x.data)) (min_le_left _ _)

theorem foldl_min_le_mem (l : List Row) :
    ∀ (a : Nat) {r : Row}, r ∈ l → l.foldl (fun b x => min b x.data) a ≤ r.data := by
  induction l with
  | nil => intro a r hr; cases hr
  | cons x t ih =>
    intro a r hr
    rcases List.mem_cons.mp hr with h | h
    · subst h
      exact le_trans (foldl_min_le_init t (min a r.data)) (min_le_right _ _)
    · exact ih (min a x.data) h

theorem foldl_min_mem (l : List Row) (a : Nat) :
    l.foldl (fun b x => min b x.data) a = a ∨
      ∃ r ∈ l, l.foldl (fun b x => min b x.data) a = r.data := by
  induction l generalizing a with
  | nil => exact Or.inl rfl
  | cons x t ih =>
    rcases ih (min a x.data) with h | ⟨r, hr, h⟩
    · rcases le_total a x.data with hle | hle
      · exact Or.inl (by simpa [min_eq_left hle] using h)
      · exact Or.inr ⟨x, List.mem_cons_self _ _, by simpa [min_eq_right hle] using h⟩
    · exact Or.inr ⟨r, List.mem_cons_of_mem _ hr, h⟩

theorem foldl_max_ge_init (l : List Row) (a : Nat) :
    a ≤ l.foldl (fun b x => max b x.data) a := by
  induction l generalizing a with
  | nil => exact le_refl a
  | cons x t ih => exact le_trans (le_max_left _ _) (ih (max a x.data))

theorem foldl_max_ge_mem (l : List Row) :
    ∀ (a : Nat) {r : Row}, r ∈ l → r.data ≤ l.foldl (fun b x => max b x.data) a := by
  induction l with
  | nil => intro a r hr; cases hr
  | cons x t ih =>
    intro a r hr
    rcases List.mem_cons.mp hr with h | h
    · subst h
      exact le_trans (le_max_right _ _) (foldl_max_ge_init t (max a r.data))
    · exact ih (max a x.data) h

theorem foldl_max_mem (l : List Row) (a : Nat) :
    l.foldl (fun b x => max b x.data) a = a ∨
      ∃ r ∈ l, l.foldl (fun b x => max b x.data) a = r.data := by
  induction l generalizing a with
  | nil => exact Or.inl rfl
  | cons x t ih =>
    rcases ih (max a x.data) with h | ⟨r, hr, h⟩
    · rcases le_total a x.data with hle | hle
      · exact Or.inr ⟨x, List.mem_cons_self _ _, by simpa [max_eq_right hle] using h⟩
      · exact Or.inl (by simpa [max_eq_left hle] using h)
    · exact Or.inr ⟨r, List.mem_cons_of_mem _ hr, h⟩

/-- C7 amended: the weekly aggregation is keyed by the week-ending (Sunday)
label of each bin, strictly ascending; every pair carries the sum of the
metric over the rows of its bin; every bin holding at least one row appears;
every key lies between the first and the last occupied bins; and the grid is
dense: every Sunday label lying between some occupied bin and some occupied
bin is a key of the output — in particular a bin with no rows between
occupied bins appears, with sum 0.  Together these force the key list to be
exactly the full weekly grid from the first to the last occupied bin. -/
theorem c7_week_bins :
    ∀ (df : List Row) (column : Metric),
      List.Pairwise (fun p q => p.1 < q.1) (aggregate_by_period df column) ∧
      (∀ p ∈ aggregate_by_period df column,
          p.1 % 7 = 6 ∧
          p.2 = sumBy (df.filter (fun x => weekLabel x.data = p.1)) column ∧
          (∃ r ∈ df, weekLabel r.data ≤ p.1) ∧
          (∃ r ∈ df, p.1 ≤ weekLabel r.data)) ∧
      (∀ r ∈ df, ∃ p ∈ aggregate_by_period df column, p.1 = weekLabel r.data) ∧
      (∀ w : Nat, w % 7 = 6 →
          (∃ r ∈ df, weekLabel r.data ≤ w) → (∃ r ∈ df, w ≤ weekLabel r.data) →
          ∃ p ∈ aggregate_by_period df column, p.1 = w) := by
  intro df column
  cases df with
  | nil => exact ⟨List.Pairwise.nil, by simp [aggregate_by_period], by simp, by simp⟩
  | cons r0 rs =>
    have hmin_mem : ∃ r ∈ r0 :: rs,
        rs.foldl (fun a x => min a x.data) r0.data = r.data := by
      rcases foldl_min_mem rs r0.data with h | ⟨r, hr, h⟩
      · exact ⟨r0, List.mem_cons_self _ _, h⟩
      · exact ⟨r, List.mem_cons_of_mem _ hr, h⟩
    have hmax_mem : ∃ r ∈ r0 :: rs,
        rs.foldl (fun a x => max a x.data) r0.data = r.data := by
      rcases foldl_max_mem rs r0.data with h | ⟨r, hr, h⟩
      · exact ⟨r0, List.mem_cons_self _ _, h⟩
      · exact ⟨r, List.mem_cons_of_mem _ hr, h⟩
    have hmin_le : ∀ r ∈ r0 :: rs,
        rs.foldl (fun a x => min a x.data) r0.data ≤ r.data := by
      intro r hr
      rcases List.mem_cons.mp hr with h | h
      · subst h; exact foldl_min_le_init rs r.data
      · exact foldl_min_le_mem rs r0.data h
    have hmax_ge : ∀ r ∈ r0 :: rs,
        r.data ≤ rs.foldl (fun a x => max a x.data) r0.data := by
      intro r hr
      rcases List.mem_cons.mp hr with h | h
      · subst h; exact foldl_max_ge_init rs r.data
      · exact foldl_max_ge_mem rs r0.data h
    have hlohi : weekLabel (rs.foldl (fun a x => min a x.data) r0.data)
        ≤ weekLabel (rs.foldl (fun a x => max a x.data) r0.data) :=
      weekLabel_mono (le_trans (hmin_le r0 (List.mem_cons_self _ _))
        (hmax_ge r0 (List.mem_cons_self _ _)))
    have hlomod := weekLabel_mod (rs.foldl (fun a x => min a x.data) r0.data)
    refine ⟨?_, ?_, ?_, ?_⟩
    · show List.Pairwise _ ((List.range _).map _)
      rw [List.pairwise_map]
      exact (List.pairwise_lt_range _).imp (fun hij => by omega)
    · intro p hp
      obtain ⟨i, hi, rfl⟩ := List.mem_map.mp hp
      rw [List.mem_range] at hi
      refine ⟨?_, rfl, ?_, ?_⟩
      · show (weekLabel (rs.foldl (fun a x => min a x.data) r0.data) + 7 * i) % 7 = 6
        omega
      · obtain ⟨r, hr, hdat⟩ := hmin_mem
        refine ⟨r, hr, ?_⟩
        show weekLabel r.data
          ≤ weekLabel (rs.foldl (fun a x => min a x.data) r0.data) + 7 * i
        rw [← hdat]
        omega
      · obtain ⟨r, hr, hdat⟩ := hmax_mem
        refine ⟨r, hr, ?_⟩
        show weekLabel (rs.foldl (fun a x => min a x.data) r0.data) + 7 * i
          ≤ weekLabel r.data
        rw [← hdat]
        omega
    · intro r hr
      have h1 : weekLabel (rs.foldl (fun a x => min a x.data) r0.data)
          ≤ weekLabel r.data := weekLabel_mono (hmin_le r hr)
      have h2 : weekLabel r.data
          ≤ weekLabel (rs.foldl (fun a x => max a x.data) r0.data) :=
        weekLabel_mono (hmax_ge r hr)
      have hwmod := weekLabel_mod r.data
      have hkey : ∃ i, i < (weekLabel (rs.foldl (fun a x => max a x.data) r0.data)
            - weekLabel (rs.foldl (fun a x => min a x.data) r0.data)) / 7 + 1 ∧
          weekLabel (rs.foldl (fun a x => min a x.data) r0.data) + 7 * i
            = weekLabel r.data := by
        refine ⟨(weekLabel r.data
          - weekLabel (rs.foldl (fun a x => min a x.data) r0.data)) / 7, ?_, ?_⟩
        · omega
        · omega
      obtain ⟨i, hilt, hieq⟩ := hkey
      refine ⟨_, List.mem_map_of_mem _ (List.mem_range.mpr hilt), ?_⟩
      show weekLabel (rs.foldl (fun a x => min a x.data) r0.data) + 7 * i
        = weekLabel r.data
      exact hieq
    · intro w hw h1ex h2ex
      obtain ⟨r1, hr1, hle1⟩ := h1ex
      obtain ⟨r2, hr2, hle2⟩ := h2ex
      have h1 : weekLabel (rs.foldl (fun a x => min a x.data) r0.data) ≤ w :=
        le_trans (weekLabel_mono (hmin_le r1 hr1)) hle1
      have h2 : w ≤ weekLabel (rs.foldl (fun a x => max a x.data) r0.data) :=
        le_trans hle2 (weekLabel_mono (hmax_ge r2 hr2))
      have hkey : ∃ i, i < (weekLabel (rs.foldl (fun a x => max a x.data) r0.data)
            - weekLabel (rs.foldl (fun a x => min a x.data) r0.data)) / 7 + 1 ∧
          weekLabel (rs.foldl (fun a x => min a x.data) r0.data) + 7 * i = w := by
        refine ⟨(w
          - weekLabel (rs.foldl (fun a x => min a x.data) r0.data)) / 7, ?_, ?_⟩
        · omega
        · omega
      obtain ⟨i, hilt, hieq⟩ := hkey
      refine ⟨_, List.mem_map_of_mem _ (List.mem_range.mpr hilt), ?_⟩
      show weekLabel (rs.foldl (fun a x => min a x.data) r0.data) + 7 * i = w
      exact hieq

theorem aggregate_dfWeeks_eq :
    aggregate_by_period dfWeeks .quantidade
      = [(738891, 5), (738898, 0), (738905, 0), (738912, 7)] := by
  norm_num [aggregate_by_period, weekLabel, sumBy, dfWeeks, rowW1, rowW2, colVal,
    List.range_succ]

/-- C7 counterexample: on rows dated 2024-01-01 and 2024-01-22 the weekly
aggregation emits four pairs, none keyed by the Monday start of a bucket
(they carry the Sunday end), and the two middle pairs belong to buckets with
zero rows; so the claimed shape — start-keyed pairs for exactly the nonempty
buckets, ascending — is false at this input (its first conjunct already
fails at the pair (738891, 5)). -/
theorem c7_counterexample :
    ¬ ((∀ p ∈ aggregate_by_period dfWeeks .quantidade, ∃ r ∈ dfWeeks,
          weekStart r.data = p.1) ∧
        (∀ r ∈ dfWeeks, ∃ p ∈ aggregate_by_period dfWeeks .quantidade,
          p.1 = weekStart r.data) ∧
        List.Pairwise (fun p q => p.1 < q.1)
          (aggregate_by_period dfWeeks .quantidade)) := by
  rintro ⟨h1, -, -⟩
  obtain ⟨r, hr, hws⟩ := h1 (738891, 5) (by rw [aggregate_dfWeeks_eq]; simp)
  fin_cases hr <;> simp [weekStart, rowW1, rowW2] at hws

/-- Witness for C7 amended at the concrete sparse table: the Sunday label
738898 (2024-01-14), whose bucket holds no rows, lies between the occupied
bins of the two rows and is therefore a key of the output, and the pair
(738898, 0) that the output holds at it carries the sum 0 of its empty
bucket. -/
theorem c7_witness :
    (∃ p ∈ aggregate_by_period dfWeeks .quantidade, p.1 = 738898) ∧
    (738898 : Nat) % 7 = 6 ∧
    (0 : ℚ) = sumBy (dfWeeks.filter (fun x => weekLabel x.data = 738898)) .quantidade ∧
    (∃ r ∈ dfWeeks, weekLabel r.data ≤ 738898) ∧
    (∃ r ∈ dfWeeks, 738898 ≤ weekLabel r.data) :=
  ⟨(c7_week_bins dfWeeks .quantidade).2.2.2 738898 (by decide)
      ⟨rowW1, by simp [dfWeeks], by decide⟩ ⟨rowW2, by simp [dfWeeks], by decide⟩,
    (c7_week_bins dfWeeks .quantidade).2.1 (738898, 0)
      (by rw [aggregate_dfWeeks_eq]; simp)⟩

/-! ## C8 -/

theorem abs_rhe_sub (q : ℚ) : |(rhe q : ℚ) - q| ≤ 1 / 2 := by
  have hf1 : (⌊q⌋ : ℚ) ≤ q := Int.floor_le q
  have hf2 : q < ⌊q⌋ + 1 := Int.lt_floor_add_one q
  unfold rhe
  split_ifs with h1 h2 h3 <;>
    rw [abs_le] <;> constructor <;> push_cast <;> linarith

theorem abs_round2_sub (x : ℚ) : |round2 x - x| ≤ 1 / 200 := by
  have h := abs_rhe_sub (x * 100)
  have heq : round2 x - x = ((rhe (x * 100) : ℚ) - x * 100) / 100 := by
    unfold round2; ring
  rw [heq, abs_div, abs_of_pos (by norm_num : (0 : ℚ) < 100),
    div_le_iff₀ (by norm_num : (0 : ℚ) < 100)]
  linarith

theorem abs_sum_round2 (xs : List ℚ) :
    |(xs.map round2).sum - xs.sum| ≤ (xs.length : ℚ) * (1 / 200) := by
  induction xs with
  | nil => simp
  | cons x t ih =>
    have hsplit : ((x :: t).map round2).sum - (x :: t).sum
        = (round2 x - x) + ((t.map round2).sum - t.sum) := by
      simp only [List.map_cons, List.sum_cons]; ring
    calc |((x :: t).map round2).sum - (x :: t).sum|
        ≤ |round2 x - x| + |(t.map round2).sum - t.sum| := by
          rw [hsplit]; exact abs_add _ _
      _ ≤ 1 / 200 + (t.length : ℚ) * (1 / 200) := by
          exact add_le_add (abs_round2_sub x) ih
      _ = ((x :: t).length : ℚ) * (1 / 200) := by
          simp [List.length_cons]; ring

theorem pdSum_map_num (xs : List ℚ) : pdSum (xs.map PdVal.num) = PdVal.num xs.sum := by
  have aux : ∀ (ys : List ℚ) (a : ℚ),
      (ys.map PdVal.num).foldl pdAdd (PdVal.num a) = PdVal.num (a + ys.sum) := by
    intro ys
    induction ys with
    | nil => intro a; simp
    | cons y t ih =>
      intro a
      simp only [List.map_cons, List.foldl_cons]
      rw [show pdAdd (PdVal.num a) (PdVal.num y) = PdVal.num (a + y) from rfl, ih,
        List.sum_cons]
      rw [add_assoc]
  unfold pdSum
  rw [aux, zero_add]

theorem filter_of_map {α β : Type} (f : α → β) (p : β → Bool) (l : List α) :
    (l.map f).filter p = (l.filter (fun a => p (f a))).map f := by
  induction l with
  | nil => rfl
  | cons x t ih => cases h : p (f x) <;> simp [List.filter_cons, h, ih]

theorem sum_map_div_mul {α : Type} (l : List α) (f : α → ℚ) (c d : ℚ) :
    (l.map (fun a => f a / c * d)).sum = (l.map f).sum / c * d := by
  induction l with
  | nil => simp
  | cons x t ih =>
    simp only [List.map_cons, List.sum_cons, ih]
    ring

/-- C8 amended: for every store s present in sales_distribution whose total
quantity over the rows of that store is nonzero, the percentages of the
channels of s sum to 100 within 0.01; with zero total quantity the column is
NaN, not a number near 100. -/
theorem c8_distribution_sums_to_100 :
    ∀ (df : List Row) (s : String),
      (∃ e ∈ calculate_sales_distribution df, e.loja = s) →
      sumBy (df.filter (fun r => r.loja = s)) .quantidade ≠ 0 →
      pdNear (pdSum (((calculate_sales_distribution df).filter
          (fun e => e.loja = s)).map (fun e => e.percentual))) 100 (1 / 100) := by
  intro df s hex hQ
  have hfil : (calculate_sales_distribution df).filter (fun e => e.loja = s)
      = ((salesOf df).filter (fun kq => kq.1.1 = s)).map (fun kq =>
          ({ loja := kq.1.1
             tipoCliente := kq.1.2
             quantidade := kq.2
             percentual := pdRound2 (pdMul100 (pdDiv kq.2 (totalOf df kq.1.1))) }
            : DistEntry)) := by
    unfold calculate_sales_distribution
    exact filter_of_map _ _ _
  have hpercs : (((calculate_sales_distribution df).filter
        (fun e => e.loja = s)).map (fun e => e.percentual))
      = ((salesOf df).filter (fun kq => kq.1.1 = s)).map
          (fun kq => pdRound2 (pdMul100 (pdDiv kq.2 (totalOf df kq.1.1)))) := by
    rw [hfil, List.map_map]
    rfl
  have hsame : ∀ kq ∈ (salesOf df).filter (fun kq => kq.1.1 = s),
      pdRound2 (pdMul100 (pdDiv kq.2 (totalOf df kq.1.1)))
        = pdRound2 (pdMul100 (pdDiv kq.2 (totalOf df s))) := by
    intro kq hkq
    have h1 : kq.1.1 = s := by simpa using List.of_mem_filter hkq
    rw [h1]
  have hfibers : ∀ k ∈ (storeChannelKeys df).filter (fun k => k.1 = s),
      (((df.filter (fun r => r.loja = s)).filter
          (fun r => (r.loja, r.tipoCliente) = k)).map
        (fun r => colVal r .quantidade)).sum
        = sumBy (df.filter (fun r => (r.loja, r.tipoCliente) = k)) .quantidade := by
    intro k hk
    have hk1 : k.1 = s := by simpa using List.of_mem_filter hk
    unfold sumBy
    congr 1
    rw [List.filter_filter]
    congr 1
    apply List.filter_congr
    intro r _
    by_cases hkey : (r.loja, r.tipoCliente) = k
    · have hls : r.loja = s := by
        have := congrArg Prod.fst hkey
        simpa [hk1] using this
      simp [hkey, hls]
    · simp [hkey]
  have hcov : ∀ r ∈ df.filter (fun r => r.loja = s),
      (r.loja, r.tipoCliente) ∈ (storeChannelKeys df).filter (fun k => k.1 = s) := by
    intro r hr
    have hrdf : r ∈ df := List.mem_of_mem_filter hr
    have hrs : r.loja = s := by simpa using List.of_mem_filter hr
    refine List.mem_filter.mpr ⟨mem_storeChannelKeys.mpr (List.mem_map_of_mem _ hrdf), ?_⟩
    simpa using hrs
  have hfw := sum_fiberwise (fun r => (r.loja, r.tipoCliente))
    (fun r => colVal r .quantidade)
    ((storeChannelKeys df).filter (fun k => k.1 = s))
    (df.filter (fun r => r.loja = s))
    ((storeChannelKeys_nodup df).filter _) hcov
  have hsalesS : (salesOf df).filter (fun kq => kq.1.1 = s)
      = ((storeChannelKeys df).filter (fun k => k.1 = s)).map (fun k =>
          (k, sumBy (df.filter (fun r => (r.loja, r.tipoCliente) = k)) .quantidade)) := by
    unfold salesOf
    exact filter_of_map _ _ _
  have hTs : totalOf df s = sumBy (df.filter (fun r => r.loja = s)) .quantidade := by
    show (((salesOf df).filter (fun x => x.1.1 = s)).map (fun x => x.2)).sum = _
    rw [hsalesS, List.map_map]
    calc (((storeChannelKeys df).filter (fun k => k.1 = s)).map ((fun x =>
          (x : (String × TipoCliente) × ℚ).2) ∘ (fun k =>
          (k, sumBy (df.filter (fun r => (r.loja, r.tipoCliente) = k)) .quantidade)))).sum
        = (((storeChannelKeys df).filter (fun k => k.1 = s)).map (fun k =>
            (((df.filter (fun r => r.loja = s)).filter
                (fun r => (r.loja, r.tipoCliente) = k)).map
              (fun r => colVal r .quantidade)).sum)).sum := by
          congr 1
          exact List.map_congr_left (fun k hk => (hfibers k hk).symm)
      _ = ((df.filter (fun r => r.loja = s)).map (fun r => colVal r .quantidade)).sum :=
          hfw
      _ = sumBy (df.filter (fun r => r.loja = s)) .quantidade := rfl
  have hnum : ∀ kq : (String × TipoCliente) × ℚ,
      pdRound2 (pdMul100 (pdDiv kq.2 (totalOf df s)))
        = PdVal.num (round2 (kq.2 / totalOf df s * 100)) := by
    intro kq
    have hT0 : totalOf df s ≠ 0 := by rw [hTs]; exact hQ
    unfold pdDiv
    rw [if_pos hT0]
    rfl
  have hpercs2 : (((calculate_sales_distribution df).filter
        (fun e => e.loja = s)).map (fun e => e.percentual))
      = ((((salesOf df).filter (fun kq => kq.1.1 = s)).map
          (fun kq => round2 (kq.2 / totalOf df s * 100))).map PdVal.num) := by
    rw [hpercs, List.map_map]
    refine List.map_congr_left ?_
    intro kq hkq
    rw [hsame kq hkq]
    exact hnum kq
  rw [hpercs2, pdSum_map_num]
  show |(((salesOf df).filter (fun kq => kq.1.1 = s)).map
      (fun kq => round2 (kq.2 / totalOf df s * 100))).sum - 100| ≤ 1 / 100
  have hcomp : ((salesOf df).filter (fun kq => kq.1.1 = s)).map
        (fun kq => round2 (kq.2 / totalOf df s * 100))
      = (((salesOf df).filter (fun kq => kq.1.1 = s)).map
          (fun kq => kq.2 / totalOf df s * 100)).map round2 := by
    rw [List.map_map]
    rfl
  have hxs_sum : (((salesOf df).filter (fun kq => kq.1.1 = s)).map
      (fun kq => kq.2 / totalOf df s * 100)).sum = 100 := by
    rw [sum_map_div_mul ((salesOf df).filter (fun kq => kq.1.1 = s))
      (fun kq => kq.2) (totalOf df s) 100]
    have hT0 : totalOf df s ≠ 0 := by rw [hTs]; exact hQ
    have hTsum : (((salesOf df).filter (fun kq => kq.1.1 = s)).map
        (fun kq => kq.2)).sum = totalOf df s := rfl
    rw [hTsum, div_self hT0, one_mul]
  have hlen : ((salesOf df).filter (fun kq => kq.1.1 = s)).length ≤ 2 := by
    rw [hsalesS, List.length_map]
    have hnd : ((storeChannelKeys df).filter (fun k => k.1 = s)).Nodup :=
      (storeChannelKeys_nodup df).filter _
    have hsnd : (((storeChannelKeys df).filter (fun k => k.1 = s)).map
        Prod.snd).Nodup := by
      refine List.Nodup.map_on ?_ hnd
      intro x hx y hy hxy
      have hx1 : x.1 = s := by simpa using List.of_mem_filter hx
      have hy1 : y.1 = s := by simpa using List.of_mem_filter hy
      exact Prod.ext (hx1.trans hy1.symm) hxy
    have hcard := hsnd.length_le_card
    rw [List.length_map] at hcard
    have : Fintype.card TipoCliente = 2 := rfl
    omega
  rw [hcomp]
  calc |((((salesOf df).filter (fun kq => kq.1.1 = s)).map
        (fun kq => kq.2 / totalOf df s * 100)).map round2).sum - 100|
      = |((((salesOf df).filter (fun kq => kq.1.1 = s)).map
          (fun kq => kq.2 / totalOf df s * 100)).map round2).sum
          - (((salesOf df).filter (fun kq => kq.1.1 = s)).map
            (fun kq => kq.2 / totalOf df s * 100)).sum| := by rw [hxs_sum]
    _ ≤ ((((salesOf df).filter (fun kq => kq.1.1 = s)).map
          (fun kq => kq.2 / totalOf df s * 100)).length : ℚ) * (1 / 200) :=
        abs_sum_round2 _
    _ ≤ 1 / 100 := by
        rw [List.length_map]
        have h2 : (((salesOf df).filter (fun kq => kq.1.1 = s)).length : ℚ) ≤ 2 := by
          exact_mod_cast hlen
        nlinarith

/-- C8 counterexample: a store whose rows sum to quantity 0 gets NaN
percentages (0/0), whose sum is NaN, not 100 within 0.01; so the claim as
stated — every store of the output has percentages summing to 100 ± 0.01 —
is false at this input. -/
theorem c8_counterexample :
    ¬ (∀ s : String,
        (∃ e ∈ calculate_sales_distribution [rowZeroQty], e.loja = s) →
        pdNear (pdSum (((calculate_sales_distribution [rowZeroQty]).filter
            (fun e => e.loja = s)).map (fun e => e.percentual))) 100 (1 / 100)) := by
  intro h
  have hdist : calculate_sales_distribution [rowZeroQty]
      = [{ loja := "Z", tipoCliente := .varejo, quantidade := 0,
           percentual := .nan }] := by
    simp [calculate_sales_distribution, salesOf, totalOf, storeChannelKeys,
      rowZeroQty, sumBy, colVal, List.insertionSort, List.orderedInsert, pdDiv,
      pdMul100, pdRound2]
  have h2 := h "Z" (by rw [hdist]; exact ⟨_, List.mem_singleton.mpr rfl, rfl⟩)
  rw [hdist] at h2
  simp [pdNear, pdSum, pdAdd] at h2

/-- Witness for C8 amended at a concrete two-channel store with total
quantity 12: the rounded percentages (41.67 and 58.33) sum to 100 within
0.01. -/
theorem c8_witness :
    sumBy (dfDist.filter (fun r => r.loja = "A")) .quantidade ≠ 0 ∧
    pdNear (pdSum (((calculate_sales_distribution dfDist).filter
        (fun e => e.loja = "A")).map (fun e => e.percentual))) 100 (1 / 100) := by
  have hQ : sumBy (dfDist.filter (fun r => r.loja = "A")) .quantidade ≠ 0 := by
    norm_num [dfDist, rowD1, rowD2, sumBy, colVal]
  refine ⟨hQ, c8_distribution_sums_to_100 dfDist "A" ?_ hQ⟩
  have hmap : (calculate_sales_distribution dfDist).map (fun e => e.loja)
      = ["A", "A"] := by
    simp [calculate_sales_distribution, salesOf, storeChannelKeys, dfDist, rowD1,
      rowD2, List.insertionSort, List.orderedInsert, keyLe, strLt, chLt,
      TipoCliente.code]
  have hA : "A" ∈ (calculate_sales_distribution dfDist).map (fun e => e.loja) := by
    rw [hmap]; simp
  obtain ⟨e, he, hel⟩ := List.mem_map.mp hA
  exact ⟨e, he, hel⟩
